import Mathlib

/-!
Shallow embedding of the store-inventory application (`st.py`).

The program keeps its whole state in a SQLite database with three tables,
`users`, `inventory` and `sales`; every operation opens a connection,
runs one or two SQL statements and closes the connection.  We embed the
database as a record of three lists of rows, in rowid (insertion) order,
together with the AUTOINCREMENT counters of the two surrogate-key tables.

SQLite `INTEGER` columns hold Python integers of arbitrary size and sign,
so they become `Int`; `TEXT` becomes `String`; `REAL` values are only
stored and compared by the operations under study, never computed with,
so they are embedded as exact rationals (`Rat`).
-/

/-- A row of the `users` table: `(username TEXT PRIMARY KEY, password TEXT)`.
The `password` column stores the hex digest produced by `make_hashes`. -/
structure UserRow where
  username : String
  password : String
deriving DecidableEq

/-- A row of the `inventory` table:
`(id INTEGER PRIMARY KEY AUTOINCREMENT, item TEXT, category TEXT,
quantity INTEGER, price REAL, min_stock INTEGER DEFAULT 5)`. -/
structure InventoryRow where
  id : Int
  item : String
  category : String
  quantity : Int
  price : Rat
  min_stock : Int
deriving DecidableEq

/-- A row of the `sales` table:
`(id INTEGER PRIMARY KEY AUTOINCREMENT, item_id INTEGER, quantity INTEGER,
sale_price REAL, sale_date TEXT)`; `item_id` references `inventory(id)`
but SQLite does not enforce the foreign key here. -/
structure SaleRow where
  id : Int
  item_id : Int
  quantity : Int
  sale_price : Rat
  sale_date : String
deriving DecidableEq

/-- One row of the result set of `get_sales`:
`SELECT s.id, i.item, s.quantity, s.sale_price, s.sale_date`. -/
structure SalesViewRow where
  sale_id : Int
  item : String
  quantity : Int
  sale_price : Rat
  sale_date : String
deriving DecidableEq

/-- The persistent state of `inventory.db`: the three tables in rowid
(insertion) order, plus the next AUTOINCREMENT value for each of the two
tables with a surrogate key. -/
structure DB where
  users : List UserRow
  inventory : List InventoryRow
  sales : List SaleRow
  next_inventory_id : Int
  next_sale_id : Int
deriving DecidableEq

/-- The wall-clock instant `datetime.now()` reads, broken into the fields
that the format string `"%Y-%m-%d %H:%M:%S"` consumes (second resolution). -/
structure DateTime where
  year : Nat
  month : Nat
  day : Nat
  hour : Nat
  minute : Nat
  second : Nat
deriving DecidableEq

/-- Zero-pad a numeral to two digits, as `%m`, `%d`, `%H`, `%M`, `%S` do. -/
def pad2 (n : Nat) : String :=
  if n < 10 then "0" ++ toString n else toString n

/-- Zero-pad a numeral to four digits, as `%Y` does. -/
def pad4 (n : Nat) : String :=
  if n < 10 then "000" ++ toString n
  else if n < 100 then "00" ++ toString n
  else if n < 1000 then "0" ++ toString n
  else toString n

/-- `datetime.now().strftime("%Y-%m-%d %H:%M:%S")`: the second-resolution
timestamp string that `record_sale` stores in `sale_date`. -/
def strftime_ymd_hms (t : DateTime) : String :=
  pad4 t.year ++ "-" ++ pad2 t.month ++ "-" ++ pad2 t.day ++ " " ++
  pad2 t.hour ++ ":" ++ pad2 t.minute ++ ":" ++ pad2 t.second

section Auth

/- `make_hashes` feeds the password through `hashlib.sha256` and returns the
hex digest.  The digest function itself is Python standard-library code, not
code of this repository, so it enters the model as an explicit function
parameter `sha256_hex`; every theorem below holds for an arbitrary digest
function. -/
variable (sha256_hex : String → String)

/-- `make_hashes(password)`: `hashlib.sha256(str.encode(password)).hexdigest()`. -/
def make_hashes (password : String) : String :=
  sha256_hex password

/-- `check_hashes(password, hashed_text)`: recompute the digest of `password`
and compare it with `hashed_text` for equality. -/
def check_hashes (password hashed_text : String) : Bool :=
  make_hashes sha256_hex password == hashed_text

/-- `create_user(username, password)`: `INSERT INTO users VALUES (?,?)` with
the hashed password; the `username` PRIMARY KEY makes the insert raise
`sqlite3.IntegrityError` when the username is already present, which the
source catches and turns into `False` with no change to the table; on
success it commits the new row and returns `True`.  Exceptions other than
`IntegrityError` propagate and are outside this model. -/
def create_user (db : DB) (username password : String) : DB × Bool :=
  if db.users.any (fun r => r.username == username) then
    (db, false)
  else
    ({ db with users := db.users ++ [⟨username, make_hashes sha256_hex password⟩] }, true)

/-- `login_user(username, password)`: `SELECT * FROM users WHERE username = ?`,
`fetchone`, then `data and check_hashes(password, data[1])`.  When no row
matches, the Python expression short-circuits to the falsy `None`; the
boolean the caller observes is embedded as `false`. -/
def login_user (db : DB) (username password : String) : Bool :=
  match db.users.find? (fun r => r.username == username) with
  | none => false
  | some row => check_hashes sha256_hex password row.password

end Auth

/-- `get_inventory()`: `SELECT * FROM inventory`, rows in rowid order. -/
def get_inventory (db : DB) : List InventoryRow :=
  db.inventory

/-- `add_item(item, category, quantity, price, min_stock=5)` (the default is
supplied at the call site when omitted): `INSERT INTO inventory (item,
category, quantity, price, min_stock) VALUES (?,?,?,?,?)`; AUTOINCREMENT
assigns the next id. -/
def add_item (db : DB) (item category : String) (quantity : Int) (price : Rat)
    (min_stock : Int) : DB :=
  { db with
    inventory := db.inventory ++
      [⟨db.next_inventory_id, item, category, quantity, price, min_stock⟩],
    next_inventory_id := db.next_inventory_id + 1 }

/-- `update_item(item_id, item, category, quantity, price, min_stock)`:
`UPDATE inventory SET item=?, category=?, quantity=?, price=?, min_stock=?
WHERE id=?`.  Every row whose `id` matches has its mutable fields replaced;
`id` itself is never written.  The Python function returns `None` whether or
not any row matched. -/
def update_item (db : DB) (item_id : Int) (item category : String)
    (quantity : Int) (price : Rat) (min_stock : Int) : DB :=
  { db with
    inventory := db.inventory.map (fun r =>
      if r.id == item_id then
        { r with item := item, category := category, quantity := quantity,
                 price := price, min_stock := min_stock }
      else r) }

/-- The outcome vocabulary the specification uses for `deleteItem`.  The
Python `delete_item` returns `None` on every path and never inspects the
cursor's rowcount, so it cannot produce the `notFound` alternative; the
embedding carries the outcome explicitly so that statements about a
`NotFound` result can be expressed at all. -/
inductive DeleteOutcome where
  | ok
  | notFound
deriving DecidableEq

/-- `delete_item(item_id)`: `DELETE FROM inventory WHERE id=?`, commit, close.
All rows with a matching id are removed; dependent `sales` rows are not
touched.  The function returns `None` unconditionally — in the outcome
vocabulary above, always `DeleteOutcome.ok`, never `notFound`. -/
def delete_item (db : DB) (item_id : Int) : DB × DeleteOutcome :=
  ({ db with inventory := db.inventory.filter (fun r => r.id != item_id) },
   DeleteOutcome.ok)

/-- `record_sale(item_id, quantity, sale_price)`: first
`UPDATE inventory SET quantity = quantity - ? WHERE id = ?` (unconditional
decrement of every matching row, with no existence or non-negativity check),
then `INSERT INTO sales (item_id, quantity, sale_price, sale_date)` stamped
with `datetime.now().strftime("%Y-%m-%d %H:%M:%S")`.  The wall clock read by
`datetime.now()` is passed in as `now`.  No error is ever signalled. -/
def record_sale (db : DB) (item_id quantity : Int) (sale_price : Rat)
    (now : DateTime) : DB :=
  { db with
    inventory := db.inventory.map (fun r =>
      if r.id == item_id then { r with quantity := r.quantity - quantity }
      else r),
    sales := db.sales ++
      [⟨db.next_sale_id, item_id, quantity, sale_price, strftime_ymd_hms now⟩],
    next_sale_id := db.next_sale_id + 1 }

/-- `get_sales()`: `SELECT s.id, i.item, s.quantity, s.sale_price, s.sale_date
FROM sales s JOIN inventory i ON s.item_id = i.id` — an inner join scanning
`sales` in rowid order and matching each sale against the inventory rows. -/
def get_sales (db : DB) : List SalesViewRow :=
  (db.sales.map (fun s =>
    (db.inventory.filter (fun i => i.id == s.item_id)).map
      (fun i => ⟨s.id, i.item, s.quantity, s.sale_price, s.sale_date⟩))).flatten

/-- The low-stock view of `main_app`:
`inventory[inventory['quantity'] < inventory['min_stock']]` — a pure
boolean-mask filter over the already-fetched inventory list, touching no
storage. -/
def low_stock (items : List InventoryRow) : List InventoryRow :=
  items.filter (fun r => decide (r.quantity < r.min_stock))

/-- The item name an inner-join row carries for a given `item_id`: the first
inventory row with that id (unique when inventory ids are distinct).  Pure
observation helper used to state properties of `get_sales`. -/
def join_item_name (db : DB) (i : Int) : String :=
  match db.inventory.find? (fun r => r.id == i) with
  | some r => r.item
  | none => ""

/-- The inventory table has pairwise-distinct ids — the invariant SQLite's
`PRIMARY KEY AUTOINCREMENT` maintains for every reachable database. -/
def inv_ids_nodup (db : DB) : Prop :=
  (db.inventory.map (fun r => r.id)).Nodup

instance (db : DB) : Decidable (inv_ids_nodup db) := by
  unfold inv_ids_nodup; infer_instance

/-! Concrete fixtures used by the closed witness theorems below. -/

/-- A concrete stand-in digest function for witnesses (the theorems hold for
an arbitrary `sha256_hex`). -/
def hashW (s : String) : String :=
  "digest:" ++ s

/-- A concrete inventory row: id 1, quantity 10. -/
def rW : InventoryRow :=
  ⟨1, "Rice", "groceries", 10, 500, 5⟩

/-- A concrete inventory row: id 2, quantity 4, below its min_stock of 5. -/
def rW2 : InventoryRow :=
  ⟨2, "Beans", "groceries", 4, 300, 5⟩

/-- A concrete inventory row whose quantity equals its min_stock. -/
def rEq : InventoryRow :=
  ⟨3, "Salt", "spices", 5, 50, 5⟩

/-- A concrete database state with one user, two items and one past sale. -/
def dbW : DB :=
  { users := [⟨"alice", hashW "pw1"⟩],
    inventory := [rW, rW2],
    sales := [⟨1, 2, 1, 300, "2026-01-01 00:00:00"⟩],
    next_inventory_id := 3,
    next_sale_id := 2 }

/-- A concrete wall-clock instant. -/
def tW : DateTime :=
  ⟨2026, 10, 12, 9, 30, 5⟩

/-! Helper lemmas shared by the claim theorems. -/

/-- Mapping an id-preserving row transform commutes with `find?` by id. -/
theorem find?_map_of_id_eq (l : List InventoryRow) (g : InventoryRow → InventoryRow)
    (hg : ∀ r, (g r).id = r.id) (i : Int) :
    (l.map g).find? (fun x => x.id == i) = (l.find? (fun x => x.id == i)).map g := by
  rw [List.find?_map]
  have hpg : ((fun x : InventoryRow => x.id == i) ∘ g) = (fun x : InventoryRow => x.id == i) := by
    funext r
    simp [Function.comp, hg]
  rw [hpg]

/-- Mapping an id-preserving row transform commutes with filtering by a
predicate on ids. -/
theorem filter_map_of_id_eq (l : List InventoryRow) (g : InventoryRow → InventoryRow)
    (hg : ∀ r, (g r).id = r.id) (q : Int → Bool) :
    (l.map g).filter (fun x => q x.id) = (l.filter (fun x => q x.id)).map g := by
  rw [List.filter_map]
  have hpg : ((fun x : InventoryRow => q x.id) ∘ g) = (fun x : InventoryRow => q x.id) := by
    funext r
    simp [Function.comp, hg]
  rw [hpg]

/-- When the ids of `l` are pairwise distinct, filtering by an id that
`find?` locates returns exactly the singleton of the located row. -/
theorem filter_eq_singleton_of_find? (l : List InventoryRow) (i : Int) (r : InventoryRow)
    (hnd : (l.map (fun x => x.id)).Nodup)
    (hr : l.find? (fun x => x.id == i) = some r) :
    l.filter (fun x => x.id == i) = [r] := by
  induction l with
  | nil => simp at hr
  | cons a t ih =>
    rw [List.map_cons, List.nodup_cons] at hnd
    by_cases h : (a.id == i) = true
    · rw [@List.find?_cons_of_pos _ (fun x => x.id == i) a t h, Option.some.injEq] at hr
      have htnil : t.filter (fun x => x.id == i) = [] := by
        rw [List.filter_eq_nil_iff]
        intro x hx hxid
        apply hnd.1
        have : a.id = x.id := by
          have h1 : a.id = i := by simpa using h
          have h2 : x.id = i := by simpa using hxid
          rw [h1, h2]
        rw [this]
        exact List.mem_map_of_mem (fun y => y.id) hx
      rw [@List.filter_cons_of_pos _ (fun x => x.id == i) a t h, htnil, hr]
    · rw [@List.find?_cons_of_neg _ (fun x => x.id == i) a t h] at hr
      rw [@List.filter_cons_of_neg _ (fun x => x.id == i) a t h]
      exact ih hnd.2 hr

/-- When no row of `l` has id `i`, filtering by id `i` returns nothing. -/
theorem filter_eq_nil_of_no_id (l : List InventoryRow) (i : Int)
    (h : ∀ r ∈ l, r.id ≠ i) :
    l.filter (fun x => x.id == i) = [] := by
  rw [List.filter_eq_nil_iff]
  intro x hx
  simpa using h x hx

/-- C2: for a username already present in the users table, `create_user`
returns the distinct conflict outcome `false` (produced only by the caught
`IntegrityError`) and leaves the users table exactly as it was; for a
username not yet present it returns `true` and persists the hashed
credential. -/
theorem create_user_conflict_or_persists (sha256_hex : String → String)
    (db : DB) (u p : String) :
    (db.users.any (fun r => r.username == u) = true →
      create_user sha256_hex db u p = (db, false)) ∧
    (db.users.any (fun r => r.username == u) = false →
      create_user sha256_hex db u p =
        ({ db with users := db.users ++ [⟨u, make_hashes sha256_hex p⟩] }, true)) := by
  constructor <;> intro h <;> simp [create_user, h]

/-- Witness for C2: in the concrete database `dbW`, creating the existing
user `alice` fails with `false` and changes nothing, while creating the
fresh user `bob` succeeds and appends the hashed credential. -/
theorem create_user_conflict_or_persists_witness :
    create_user hashW dbW "alice" "pw2" = (dbW, false) ∧
    create_user hashW dbW "bob" "pw2" =
      ({ dbW with users := dbW.users ++ [⟨"bob", make_hashes hashW "pw2"⟩] }, true) :=
  ⟨(create_user_conflict_or_persists hashW dbW "alice" "pw2").1 (by decide),
   (create_user_conflict_or_persists hashW dbW "bob" "pw2").2 (by decide)⟩

/-- C3: for a username with no existing record, `create_user` succeeds
(returns `true`) and `login_user` with the same password on the resulting
state returns `true`. -/
theorem create_user_then_login (sha256_hex : String → String)
    (db : DB) (u p : String)
    (h : ∀ r ∈ db.users, r.username ≠ u) :
    (create_user sha256_hex db u p).2 = true ∧
    login_user sha256_hex (create_user sha256_hex db u p).1 u p = true := by
  have hany : db.users.any (fun r => r.username == u) = false := by
    rw [List.any_eq_false]
    intro r hr
    simpa using h r hr
  have hfind : db.users.find? (fun r => r.username == u) = none := by
    rw [List.find?_eq_none]
    intro r hr
    simpa using h r hr
  constructor
  · simp [create_user, hany]
  · simp [create_user, hany, login_user, List.find?_append, hfind,
          check_hashes, make_hashes]

/-- Witness for C3: creating the fresh user `bob` in `dbW` succeeds and the
subsequent login with the same password succeeds. -/
theorem create_user_then_login_witness :
    (create_user hashW dbW "bob" "pw2").2 = true ∧
    login_user hashW (create_user hashW dbW "bob" "pw2").1 "bob" "pw2" = true :=
  create_user_then_login hashW dbW "bob" "pw2" (by decide)

/-- C4: `login_user` returns false when no record with the username exists,
and for a stored record it returns false whenever the digest of the
supplied password differs from the stored digest; verification is exactly
recomputing the digest and comparing for equality (`check_hashes`). -/
theorem login_user_false_cases (sha256_hex : String → String)
    (db : DB) (u p : String) :
    (db.users.find? (fun r => r.username == u) = none →
      login_user sha256_hex db u p = false) ∧
    (∀ row, db.users.find? (fun r => r.username == u) = some row →
      sha256_hex p ≠ row.password → login_user sha256_hex db u p = false) ∧
    (∀ pw d, check_hashes sha256_hex pw d = (sha256_hex pw == d)) := by
  refine ⟨?_, ?_, ?_⟩
  · intro h
    simp [login_user, h]
  · intro row hrow hne
    simp [login_user, hrow, check_hashes, make_hashes]
    exact hne
  · intro pw d
    rfl

/-- Witness for C4: in `dbW`, logging in as the absent user `zed` returns
false, and logging in as `alice` with a password of different digest
returns false. -/
theorem login_user_false_cases_witness :
    login_user hashW dbW "zed" "pw" = false ∧
    login_user hashW dbW "alice" "wrong" = false :=
  ⟨(login_user_false_cases hashW dbW "zed" "pw").1 (by decide),
   (login_user_false_cases hashW dbW "alice" "wrong").2.1
     ⟨"alice", hashW "pw1"⟩ (by decide) (by decide)⟩

/-- C5: the low-stock view contains a row of the fetched list exactly when
its quantity is strictly below its min_stock; in the boundary case
`quantity = min_stock` the row is excluded.  `low_stock` is a pure filter
over the already-fetched list. -/
theorem low_stock_mem_iff (items : List InventoryRow) (r : InventoryRow) :
    (r ∈ low_stock items ↔ r ∈ items ∧ r.quantity < r.min_stock) ∧
    (r.quantity = r.min_stock → r ∉ low_stock items) := by
  constructor
  · simp [low_stock, List.mem_filter]
  · intro heq hmem
    rw [low_stock, List.mem_filter] at hmem
    rw [heq] at hmem
    simp at hmem

/-- Witness for C5: `rW2` (quantity 4 < min_stock 5) is in the low-stock
view of a concrete list and `rEq` (quantity 5 = min_stock 5) is not. -/
theorem low_stock_mem_iff_witness :
    rW2 ∈ low_stock [rW, rW2, rEq] ∧ rEq ∉ low_stock [rW, rW2, rEq] :=
  ⟨(low_stock_mem_iff [rW, rW2, rEq] rW2).1.mpr (by decide),
   (low_stock_mem_iff [rW, rW2, rEq] rEq).2 (by decide)⟩

/-- C6 counterexample: on the concrete database `dbW`, whose inventory has
no row with id 99, `delete_item 99` does not return a `NotFound` outcome —
the claim that it returns NotFound and leaves the table unchanged is false
because the outcome is the same unconditional `ok` as for a successful
delete. -/
theorem delete_item_missing_claims_notfound_false :
    ¬ ((delete_item dbW 99).2 = DeleteOutcome.notFound ∧
       (delete_item dbW 99).1 = dbW) := by
  decide

/-- C6 amended: for an id with no matching inventory row, `delete_item`
leaves the whole database (in particular the inventory listing) unchanged,
and returns the same `ok` outcome as any other delete — it never signals
NotFound. -/
theorem delete_item_missing_id (db : DB) (i : Int)
    (h : ∀ r ∈ db.inventory, r.id ≠ i) :
    delete_item db i = (db, DeleteOutcome.ok) := by
  unfold delete_item
  have hf : db.inventory.filter (fun r => r.id != i) = db.inventory := by
    rw [List.filter_eq_self]
    intro r hr
    simpa using h r hr
  rw [hf]

/-- Witness for the amended C6: deleting the absent id 99 from `dbW`
returns the unchanged database with outcome `ok`. -/
theorem delete_item_missing_id_witness :
    delete_item dbW 99 = (dbW, DeleteOutcome.ok) :=
  delete_item_missing_id dbW 99 (by decide)

/-- Specialisation of `filter_map_of_id_eq` to the predicate `id == i`. -/
theorem filter_beq_map_of_id_eq (l : List InventoryRow) (g : InventoryRow → InventoryRow)
    (hg : ∀ r, (g r).id = r.id) (i : Int) :
    (l.map g).filter (fun x => x.id == i) = (l.filter (fun x => x.id == i)).map g := by
  rw [List.filter_map]
  have hpg : ((fun x : InventoryRow => x.id == i) ∘ g) = (fun x : InventoryRow => x.id == i) := by
    funext r
    simp [Function.comp, hg]
  rw [hpg]

/-- Specialisation of `filter_map_of_id_eq` to the predicate `id != i`. -/
theorem filter_bne_map_of_id_eq (l : List InventoryRow) (g : InventoryRow → InventoryRow)
    (hg : ∀ r, (g r).id = r.id) (i : Int) :
    (l.map g).filter (fun x => x.id != i) = (l.filter (fun x => x.id != i)).map g := by
  rw [List.filter_map]
  have hpg : ((fun x : InventoryRow => x.id != i) ∘ g) = (fun x : InventoryRow => x.id != i) := by
    funext r
    simp [Function.comp, hg]
  rw [hpg]

/-- C7: for an id located in the inventory, `update_item` followed by the
listing shows that row with exactly the supplied mutable fields while its
id is kept; all rows with other ids are unchanged (same filtered listing),
the row count is stable, and the users and sales tables are untouched. -/
theorem update_item_roundtrip (db : DB) (i : Int) (item category : String)
    (quantity : Int) (price : Rat) (min_stock : Int) (r : InventoryRow)
    (hr : db.inventory.find? (fun x => x.id == i) = some r) :
    ((update_item db i item category quantity price min_stock).inventory.find?
        (fun x => x.id == i) =
      some ⟨r.id, item, category, quantity, price, min_stock⟩) ∧
    ((update_item db i item category quantity price min_stock).inventory.filter
        (fun x => x.id != i) =
      db.inventory.filter (fun x => x.id != i)) ∧
    ((update_item db i item category quantity price min_stock).inventory.length
      = db.inventory.length) ∧
    ((update_item db i item category quantity price min_stock).users = db.users) ∧
    ((update_item db i item category quantity price min_stock).sales = db.sales) := by
  have hg : ∀ x : InventoryRow,
      ((fun y : InventoryRow =>
        if y.id == i then
          { y with item := item, category := category, quantity := quantity,
                   price := price, min_stock := min_stock }
        else y) x).id = x.id := by
    intro x
    by_cases hx : (x.id == i) = true <;> simp [hx]
  refine ⟨?_, ?_, ?_, rfl, rfl⟩
  · have hp := List.find?_some hr
    simp only [update_item]
    rw [find?_map_of_id_eq _ _ hg i, hr]
    have hid : r.id = i := by simpa using hp
    simp [hid]
  · simp only [update_item]
    rw [filter_bne_map_of_id_eq _ _ hg i]
    have hfix : ∀ a ∈ db.inventory.filter (fun x => x.id != i),
        (fun y : InventoryRow =>
          if y.id == i then
            { y with item := item, category := category, quantity := quantity,
                     price := price, min_stock := min_stock }
          else y) a = id a := by
      intro a ha
      have hbne := (List.mem_filter.mp ha).2
      have hne : (a.id == i) = false := by
        simpa [bne] using hbne
      simp [hne]
    rw [List.map_congr_left hfix, List.map_id]
  · simp [update_item]

/-- Witness for C7: updating item 1 of `dbW` to new field values, the
listing shows the row with exactly those values and the original id, other
rows are unchanged, the row count is stable and the other tables are
untouched. -/
theorem update_item_roundtrip_witness :
    ((update_item dbW 1 "Rice2" "grains" 20 550 6).inventory.find?
        (fun x => x.id == 1) =
      some ⟨rW.id, "Rice2", "grains", 20, 550, 6⟩) ∧
    ((update_item dbW 1 "Rice2" "grains" 20 550 6).inventory.filter
        (fun x => x.id != 1) =
      dbW.inventory.filter (fun x => x.id != 1)) ∧
    ((update_item dbW 1 "Rice2" "grains" 20 550 6).inventory.length
      = dbW.inventory.length) ∧
    ((update_item dbW 1 "Rice2" "grains" 20 550 6).users = dbW.users) ∧
    ((update_item dbW 1 "Rice2" "grains" 20 550 6).sales = dbW.sales) :=
  update_item_roundtrip dbW 1 "Rice2" "grains" 20 550 6 rW (by decide)

/-- The inventory transform of `record_sale`'s UPDATE preserves row ids. -/
theorem record_sale_row_id (i q : Int) :
    ∀ x : InventoryRow,
      ((fun r : InventoryRow =>
        if r.id == i then { r with quantity := r.quantity - q } else r) x).id = x.id := by
  intro x
  by_cases hx : (x.id == i) = true <;> simp [hx]

/-- After `record_sale`, looking up the sold id finds the previously located
row with its quantity decremented by the sold quantity. -/
theorem record_sale_find?_inventory (db : DB) (i q : Int) (p : Rat) (now : DateTime)
    (r : InventoryRow) (hr : db.inventory.find? (fun x => x.id == i) = some r) :
    (record_sale db i q p now).inventory.find? (fun x => x.id == i)
      = some { r with quantity := r.quantity - q } := by
  have hp := List.find?_some hr
  have hid : r.id = i := by simpa using hp
  simp only [record_sale]
  rw [find?_map_of_id_eq _ _ (record_sale_row_id i q) i, hr]
  simp [hid]

/-- The join rows a sale contributes are unchanged by `record_sale`'s
quantity decrement, because the join only reads `id` and `item`. -/
theorem join_rows_map_quantity (inv : List InventoryRow) (i q : Int) (s : SaleRow) :
    ((inv.map (fun r : InventoryRow =>
        if r.id == i then { r with quantity := r.quantity - q } else r)).filter
        (fun x => x.id == s.item_id)).map
      (fun x => (⟨s.id, x.item, s.quantity, s.sale_price, s.sale_date⟩ : SalesViewRow))
    = (inv.filter (fun x => x.id == s.item_id)).map
      (fun x => ⟨s.id, x.item, s.quantity, s.sale_price, s.sale_date⟩) := by
  rw [filter_beq_map_of_id_eq _ _ (record_sale_row_id i q) s.item_id, List.map_map]
  apply List.map_congr_left
  intro a ha
  by_cases hx : (a.id == i) = true <;> simp [Function.comp, hx]

/-- C1: for an item located by its id, `record_sale` decrements that item's
stored quantity by the sold quantity, appends exactly one Sale row with the
given item id, quantity and price, stamped with the second-resolution
timestamp of the wall clock, and the sales listing gains exactly one row
referencing that item's name with that quantity and price. -/
theorem record_sale_decrements_and_appends (db : DB) (i q : Int) (p : Rat)
    (now : DateTime) (r : InventoryRow)
    (hnd : inv_ids_nodup db)
    (hr : db.inventory.find? (fun x => x.id == i) = some r) :
    ((record_sale db i q p now).inventory.find? (fun x => x.id == i)
      = some { r with quantity := r.quantity - q }) ∧
    ((record_sale db i q p now).sales
      = db.sales ++ [⟨db.next_sale_id, i, q, p, strftime_ymd_hms now⟩]) ∧
    (get_sales (record_sale db i q p now)
      = get_sales db ++ [⟨db.next_sale_id, r.item, q, p, strftime_ymd_hms now⟩]) := by
  refine ⟨record_sale_find?_inventory db i q p now r hr, rfl, ?_⟩
  have hone : db.inventory.filter (fun x => x.id == i) = [r] :=
    filter_eq_singleton_of_find? db.inventory i r hnd hr
  simp only [get_sales, record_sale, List.map_append, List.flatten_append]
  congr 1
  · congr 1
    apply List.map_congr_left
    intro s hs
    exact join_rows_map_quantity db.inventory i q s
  · rw [List.map_cons, List.map_nil, List.flatten_cons, List.flatten_nil, List.append_nil]
    rw [join_rows_map_quantity db.inventory i q ⟨db.next_sale_id, i, q, p, strftime_ymd_hms now⟩]
    simp [hone]

/-- Witness for C1: selling 3 units of item 1 (quantity 10) in `dbW` at
price 480 leaves the item at quantity 7, appends exactly one Sale row with
the timestamp of `tW`, and the sales listing gains exactly one matching
row. -/
theorem record_sale_decrements_and_appends_witness :
    ((record_sale dbW 1 3 480 tW).inventory.find? (fun x => x.id == 1)
      = some { rW with quantity := rW.quantity - 3 }) ∧
    ((record_sale dbW 1 3 480 tW).sales
      = dbW.sales ++ [⟨dbW.next_sale_id, 1, 3, 480, strftime_ymd_hms tW⟩]) ∧
    (get_sales (record_sale dbW 1 3 480 tW)
      = get_sales dbW ++ [⟨dbW.next_sale_id, rW.item, 3, 480, strftime_ymd_hms tW⟩]) :=
  record_sale_decrements_and_appends dbW 1 3 480 tW rW (by decide) (by decide)

/-- C9: the decrement in `record_sale` is unconditional — when the sold
quantity q exceeds the stored quantity, the item is left with the negative
stored quantity n - q; nothing enforces non-negativity at decrement time. -/
theorem record_sale_goes_negative (db : DB) (i q : Int) (p : Rat)
    (now : DateTime) (r : InventoryRow)
    (hr : db.inventory.find? (fun x => x.id == i) = some r)
    (hq : r.quantity < q) :
    ((record_sale db i q p now).inventory.find? (fun x => x.id == i)
      = some { r with quantity := r.quantity - q }) ∧
    r.quantity - q < 0 :=
  ⟨record_sale_find?_inventory db i q p now r hr, by omega⟩

/-- Witness for C9: selling 12 units of item 1 (quantity 10) in `dbW`
leaves the item stored with quantity 10 - 12 = -2 < 0. -/
theorem record_sale_goes_negative_witness :
    ((record_sale dbW 1 12 480 tW).inventory.find? (fun x => x.id == 1)
      = some { rW with quantity := rW.quantity - 12 }) ∧
    rW.quantity - (12 : Int) < 0 :=
  record_sale_goes_negative dbW 1 12 480 tW rW (by decide) (by decide)

/-- C10: for an item_id with no matching inventory row, `record_sale`
signals nothing: the UPDATE touches no row (inventory is left completely
unchanged) and the INSERT still appends a Sale row carrying the dangling
item_id — an orphan from creation, invisible in the inner-join sales
listing. -/
theorem record_sale_missing_item (db : DB) (i q : Int) (p : Rat) (now : DateTime)
    (h : ∀ r ∈ db.inventory, r.id ≠ i) :
    ((record_sale db i q p now).inventory = db.inventory) ∧
    ((record_sale db i q p now).sales
      = db.sales ++ [⟨db.next_sale_id, i, q, p, strftime_ymd_hms now⟩]) ∧
    (get_sales (record_sale db i q p now) = get_sales db) := by
  have hinv : (record_sale db i q p now).inventory = db.inventory := by
    simp only [record_sale]
    have hfix : ∀ a ∈ db.inventory,
        (fun r : InventoryRow =>
          if r.id == i then { r with quantity := r.quantity - q } else r) a = id a := by
      intro a ha
      have hne : (a.id == i) = false := by simpa using h a ha
      simp [hne]
    rw [List.map_congr_left hfix, List.map_id]
  have hnil : db.inventory.filter (fun x => x.id == i) = [] :=
    filter_eq_nil_of_no_id db.inventory i h
  refine ⟨hinv, rfl, ?_⟩
  rw [get_sales, hinv]
  have hsales : (record_sale db i q p now).sales
      = db.sales ++ [⟨db.next_sale_id, i, q, p, strftime_ymd_hms now⟩] := rfl
  rw [hsales, List.map_append, List.flatten_append]
  simp [get_sales, hnil]

/-- Witness for C10: selling against the absent item id 99 in `dbW` leaves
the inventory unchanged, inserts the dangling Sale row, and the sales
listing is unchanged. -/
theorem record_sale_missing_item_witness :
    ((record_sale dbW 99 2 100 tW).inventory = dbW.inventory) ∧
    ((record_sale dbW 99 2 100 tW).sales
      = dbW.sales ++ [⟨dbW.next_sale_id, 99, 2, 100, strftime_ymd_hms tW⟩]) ∧
    (get_sales (record_sale dbW 99 2 100 tW) = get_sales dbW) :=
  record_sale_missing_item dbW 99 2 100 tW (by decide)

/-- List-level form of the inner join: scanning sales in order, each sale
with a matching inventory id (unique under `Nodup`) contributes exactly one
view row carrying the matched item's name, and each sale without a match
contributes nothing. -/
theorem join_flatten_eq_filter_map (inv : List InventoryRow)
    (hnd : (inv.map (fun x => x.id)).Nodup) (sales : List SaleRow) :
    ((sales.map (fun s => (inv.filter (fun x => x.id == s.item_id)).map
        (fun x => (⟨s.id, x.item, s.quantity, s.sale_price, s.sale_date⟩ : SalesViewRow)))).flatten)
    = (sales.filter (fun s => inv.any (fun x => x.id == s.item_id))).map
        (fun s => ⟨s.id,
          (match inv.find? (fun x => x.id == s.item_id) with
           | some x => x.item
           | none => ""),
          s.quantity, s.sale_price, s.sale_date⟩) := by
  induction sales with
  | nil => rfl
  | cons s t ih =>
    by_cases hs : inv.any (fun x => x.id == s.item_id) = true
    · have hex : ∃ x, x ∈ inv ∧ ((fun y : InventoryRow => y.id == s.item_id) x) = true :=
        List.any_eq_true.mp hs
      have hsome : (inv.find? (fun y => y.id == s.item_id)).isSome := by
        rw [List.find?_isSome]
        exact hex
      obtain ⟨x, hx⟩ := Option.isSome_iff_exists.mp hsome
      have hfilter : inv.filter (fun y => y.id == s.item_id) = [x] :=
        filter_eq_singleton_of_find? inv s.item_id x hnd hx
      rw [List.map_cons, List.flatten_cons, ih,
          @List.filter_cons_of_pos _ (fun y => inv.any (fun x => x.id == y.item_id)) s t hs,
          List.map_cons, hfilter, hx]
      simp
    · have hb : inv.any (fun x => x.id == s.item_id) = false := by
        simpa using hs
      have hnone : inv.find? (fun y => y.id == s.item_id) = none := by
        rw [List.find?_eq_none]
        intro y hy
        have := List.any_eq_false.mp hb y hy
        simpa using this
      have hfilter : inv.filter (fun y => y.id == s.item_id) = [] := by
        rw [List.filter_eq_nil_iff]
        intro y hy
        exact List.any_eq_false.mp hb y hy
      rw [List.map_cons, List.flatten_cons, ih,
          @List.filter_cons_of_neg _ (fun y => inv.any (fun x => x.id == y.item_id)) s t hs,
          hfilter]
      rfl

/-- C8: under the distinct-ids invariant, `get_sales` returns, in sales
order, one row `(saleId, itemName, quantity, salePrice, saleDate)` per Sale
whose item_id matches an existing inventory row, joining in that item's
name, and silently excludes every Sale whose referenced item is absent
(inner-join semantics). -/
theorem get_sales_inner_join (db : DB) (hnd : inv_ids_nodup db) :
    get_sales db =
      (db.sales.filter (fun s => db.inventory.any (fun x => x.id == s.item_id))).map
        (fun s => ⟨s.id, join_item_name db s.item_id,
                   s.quantity, s.sale_price, s.sale_date⟩) := by
  have h := join_flatten_eq_filter_map db.inventory hnd db.sales
  rw [get_sales, h]
  rfl

/-- A database with an orphaned sale: `dbW` plus a sale whose item_id 77
matches no inventory row. -/
def db8 : DB :=
  { dbW with sales := dbW.sales ++ [⟨2, 77, 1, 50, "2026-01-02 00:00:00"⟩] }

/-- Witness for C8: in `db8`, whose sales table holds one matching sale and
one orphaned sale, the listing equals the filtered-and-joined sales. -/
theorem get_sales_inner_join_witness :
    get_sales db8 =
      (db8.sales.filter (fun s => db8.inventory.any (fun x => x.id == s.item_id))).map
        (fun s => ⟨s.id, join_item_name db8 s.item_id,
                   s.quantity, s.sale_price, s.sale_date⟩) :=
  get_sales_inner_join db8 (by decide)
